import Mathlib

/-!
# Incremental-fetch reconciliation of Market_Data_Fetcher

Shallow embedding of the per-symbol incremental-fetch reconciliation logic of
the four downloaders in `Market_Data/` (`etf_data.py`, `stock_data.py`,
`index_data.py`, `us_etf_data.py`), together with theorems settling the
reconciliation claims of the specification.

Modelling conventions:

* A calendar date (Python `datetime.date`) is represented by its day number
  (days since 1970-01-01, a `Nat`).  `datetime.date` is totally ordered and
  `+ timedelta(days=1)` is `+ 1` on day numbers, so this is order- and
  successor-faithful.  `daysFromCivil y m d` converts a civil date to its day
  number (standard civil-from-days arithmetic), so that concrete test dates
  such as 2024-01-04 can be written readably.
* The US downloader builds `YYYY-MM-DD` strings and compares them as strings;
  for that code path dates are kept as `(year, month, day)` triples (`Date`)
  so the string rendering and the string comparison can be embedded exactly.
* Python `set`s of dates are kept as the lists they are built from, with
  set membership as list membership; `sorted(setA - setB)` becomes
  `sortedSetDiff`: deduplicate, remove the elements of `B`, and sort
  ascending — exactly the (distinct, ascending) list Python produces.
* The storage tables (`etf_data`, `stock_data`, `index_data`) are keyed by
  `UNIQUE(symbol, date)`; the reconciliation logic reads only the
  (symbol, date) keys (the OHLC values are passed through untouched), so
  those stores are modelled as lists of (symbol, day-number) pairs.  The
  `international_etf_data` store keeps the close price as well, because its
  update path's persistence of price values is itself under scrutiny.
* Prices (`float` columns in pandas) are modelled as `Rat`: the validation
  code only compares prices against 0, and sign comparison on IEEE floats is
  exact, so `Rat` is sign-faithful.  `round(x, 2)` applied by the US
  downloader is omitted: rounding cannot change the presence of a row nor
  the sign of a price, which is all any claim inspects.
* Network calls (`ticker.history`, `yf.download`) are modelled by passing
  their result in as an `Except Unit Batch` argument (`.error` = the call
  raised); a retry loop over attempts receives the per-attempt results as a
  list.  A `psycopg2` error raised while saving is modelled by a `saveOk`
  flag on the per-symbol environment.
-/

/-- Day number (days since 1970-01-01) of the civil date `y-m-d`
(Gregorian; valid for `y ≥ 1970`, which covers every date this program
manipulates).  Standard days-from-civil arithmetic. -/
def daysFromCivil (y m d : Nat) : Nat :=
  let y' := if m ≤ 2 then y - 1 else y
  let era := y' / 400
  let yoe := y' % 400
  let mp := if m > 2 then m - 3 else m + 9
  let doy := (153 * mp + 2) / 5 + d - 1
  let doe := yoe * 365 + yoe / 4 - yoe / 100 + doy
  era * 146097 + doe - 719468

/-- Day of week of a day number, `0` = Monday … `6` = Sunday
(1970-01-01 was a Thursday, i.e. `3`). -/
def dayOfWeek (n : Nat) : Nat := (n + 3) % 7

/-- `pd.date_range(freq='B')` membership: Monday through Friday. -/
def isBusinessDay (n : Nat) : Bool := dayOfWeek n < 5

/-- One OHLCV row of a pandas DataFrame returned by the Source
(`ticker.history`).  `date` is the day number of the row's `Date` index
entry after `pd.to_datetime(...).dt.date`. -/
structure Row where
  date : Nat
  opn : Rat
  high : Rat
  low : Rat
  close : Rat
  volume : Int
  deriving DecidableEq, Repr

/-- A DataFrame batch returned by the Source: the set of columns present
(pandas column check `col in data.columns`) plus the rows. -/
structure Batch where
  hasOpen : Bool
  hasHigh : Bool
  hasLow : Bool
  hasClose : Bool
  hasVolume : Bool
  rows : List Row
  deriving DecidableEq, Repr

/-- A batch whose five required columns are all present. -/
def Batch.mk5 (rows : List Row) : Batch :=
  ⟨true, true, true, true, true, rows⟩

/-- The `etf_data` / `stock_data` / `index_data` storage: the set of
persisted (symbol, date) keys (one row per key, `UNIQUE(symbol, date)`). -/
structure DB where
  rows : List (String × Nat)
  deriving DecidableEq, Repr

/-- `sorted(set(a) - set(b))`: the ascending list of the distinct elements
of `a` that are not in `b`. -/
def sortedSetDiff (a b : List Nat) : List Nat :=
  List.insertionSort (· ≤ ·) (a.dedup.filter fun d => decide (d ∉ b))

/-- `SELECT DISTINCT date FROM <table> WHERE symbol = %s AND date >= %s AND
date <= %s` collected into a Python set (`etf_data.py` line 622,
`stock_data.py` line 378, `index_data.py` line 304). -/
def existingDates (db : DB) (sym : String) (startD endD : Nat) : List Nat :=
  ((db.rows.filter fun p =>
    decide (p.1 = sym ∧ startD ≤ p.2 ∧ p.2 ≤ endD)).map Prod.snd).dedup

/-- The dates the Source actually has OHLC rows for in a batch
(`data['Date']`, `etf_data.py` line 651). -/
def tradedDates (b : Batch) : List Nat := b.rows.map Row.date

/-- `ETFDataDownloader.get_missing_dates_for_symbol` (`etf_data.py`
lines 613-663).  `history` is the result of the
`ticker.history(start, end+1day)` call: `.error` models the call raising
(caught at line 653, returning `[]`); an empty DataFrame returns `[]`
(line 645); otherwise the result is
`sorted(trading_dates - existing_dates)` (line 658). -/
def etfMissingDates (db : DB) (sym : String) (startD endD : Nat)
    (history : Except Unit Batch) : List Nat :=
  let existing := existingDates db sym startD endD
  match history with
  | .error _ => []
  | .ok b =>
    if b.rows.isEmpty then []
    else sortedSetDiff (tradedDates b) existing

/-- `pd.date_range(start, end, freq='B')` as a list of day numbers: every
Monday-Friday day in `[startD, endD]`. -/
def businessRange (startD endD : Nat) : List Nat :=
  (List.range' startD (endD + 1 - startD)).filter isBusinessDay

/-- `StockDataDownloader.get_missing_dates_for_symbol` (`stock_data.py`
lines 371-400): candidate dates come from
`pd.date_range(start, end, freq='B')` — all Monday-Friday days in the
window — not from the Source. -/
def stockMissingDates (db : DB) (sym : String) (startD endD : Nat) :
    List Nat :=
  let existing := existingDates db sym startD endD
  sortedSetDiff (businessRange startD endD) existing

/-- `IndexDataDownloader.get_missing_dates` (`index_data.py` lines 297-326):
identical shape to the stock variant, with the symbol fixed to
`'NIFTY50'`; candidate dates again come from
`pd.date_range(start, end, freq='B')`. -/
def indexMissingDates (db : DB) (startD endD : Nat) : List Nat :=
  let existing := existingDates db "NIFTY50" startD endD
  sortedSetDiff (businessRange startD endD) existing

/-- Membership in `sorted(set(a) - set(b))` is membership in `a` minus
membership in `b`. -/
theorem mem_sortedSetDiff (a b : List Nat) (d : Nat) :
    d ∈ sortedSetDiff a b ↔ d ∈ a ∧ d ∉ b := by
  simp [sortedSetDiff, List.mem_filter]

/-- `sorted(set(a) - set(b))` is strictly ascending. -/
theorem sorted_sortedSetDiff (a b : List Nat) :
    (sortedSetDiff a b).Sorted (· < ·) := by
  apply List.Sorted.lt_of_le
  · exact List.sorted_insertionSort _ _
  · exact ((a.dedup.filter _).perm_insertionSort (· ≤ ·)).nodup_iff.mpr
      (a.nodup_dedup.filter _)

/-- The `SELECT DISTINCT date ... WHERE symbol = %s AND date >= %s AND
date <= %s` query returns exactly the stored dates of the symbol inside
the window. -/
theorem mem_existingDates (db : DB) (sym : String) (startD endD d : Nat) :
    d ∈ existingDates db sym startD endD ↔
      (sym, d) ∈ db.rows ∧ startD ≤ d ∧ d ≤ endD := by
  simp only [existingDates, List.mem_dedup, List.mem_map, List.mem_filter,
    decide_eq_true_eq]
  constructor
  · rintro ⟨⟨ps, pd⟩, ⟨hmem, h1, h2, h3⟩, rfl⟩
    subst h1
    exact ⟨hmem, h2, h3⟩
  · rintro ⟨hmem, h2, h3⟩
    exact ⟨(sym, d), ⟨hmem, rfl, h2, h3⟩, rfl⟩

/-- Storage of the scenario: symbol "ABC" has bars persisted for
2024-01-01 through 2024-01-03. -/
def abcDB : DB :=
  ⟨[("ABC", daysFromCivil 2024 1 1), ("ABC", daysFromCivil 2024 1 2),
    ("ABC", daysFromCivil 2024 1 3)]⟩

/-- Source batch of the scenario: OHLC rows for the five trading days
2024-01-01 through 2024-01-05. -/
def abcBatch : Batch :=
  Batch.mk5
    [⟨daysFromCivil 2024 1 1, 10, 11, 9, 10, 100⟩,
     ⟨daysFromCivil 2024 1 2, 10, 11, 9, 10, 100⟩,
     ⟨daysFromCivil 2024 1 3, 10, 11, 9, 10, 100⟩,
     ⟨daysFromCivil 2024 1 4, 10, 11, 9, 10, 100⟩,
     ⟨daysFromCivil 2024 1 5, 10, 11, 9, 10, 100⟩]

/-- C1: for every symbol and window, when the Source call returns a batch,
`get_missing_dates_for_symbol` returns a strictly ascending list holding
exactly the dates the Source has rows for minus the dates stored for the
symbol in the window; and on the concrete scenario (bars persisted for
2024-01-01..2024-01-03, Source returning trading days
2024-01-01..2024-01-05) it returns [2024-01-04, 2024-01-05]. -/
theorem etfMissingDates_eq_traded_minus_existing :
    (∀ (db : DB) (sym : String) (startD endD : Nat) (b : Batch),
      (etfMissingDates db sym startD endD (.ok b)).Sorted (· < ·) ∧
      ∀ d : Nat, d ∈ etfMissingDates db sym startD endD (.ok b) ↔
        d ∈ tradedDates b ∧
          ¬((sym, d) ∈ db.rows ∧ startD ≤ d ∧ d ≤ endD)) ∧
    etfMissingDates abcDB "ABC" (daysFromCivil 2024 1 1)
        (daysFromCivil 2024 1 5) (.ok abcBatch) =
      [daysFromCivil 2024 1 4, daysFromCivil 2024 1 5] := by
  refine ⟨fun db sym startD endD b => ⟨?_, fun d => ?_⟩, by decide⟩
  · by_cases h : b.rows.isEmpty <;> simp [etfMissingDates, h,
      sorted_sortedSetDiff]
  · by_cases h : b.rows.isEmpty
    · simp [etfMissingDates, h, tradedDates, List.isEmpty_iff.mp h]
    · simp [etfMissingDates, h, mem_sortedSetDiff, mem_existingDates]

/-- `ETFDataDownloader.get_last_date_for_symbol` (`etf_data.py`
lines 585-611): `SELECT MAX(date) FROM etf_data WHERE symbol = %s`,
`None` when the symbol has no stored rows. -/
def lastDateForSymbol (db : DB) (sym : String) : Option Nat :=
  ((db.rows.filter fun p => decide (p.1 = sym)).map Prod.snd).max?

/-- Start of the next fetch window (`etf_data.py` lines 780-792): the day
after the last stored date, or the universe's configured historical floor
when the symbol has no stored rows. -/
def resolveStart (floorD : Nat) (db : DB) (sym : String) : Nat :=
  match lastDateForSymbol db sym with
  | some lastD => lastD + 1
  | none => floorD

/-- `ETFDataDownloader.validate_data` (`etf_data.py` lines 376-407):
reject an empty frame, a missing required column, a negative price or a
negative volume; zero prices are only logged as suspicious
(lines 397-400). -/
def etfValidateData (b : Batch) : Bool :=
  if b.rows.isEmpty then false
  else if !(b.hasOpen && b.hasHigh && b.hasLow && b.hasClose &&
      b.hasVolume) then false
  else if b.rows.any fun r => decide (r.opn < 0) || decide (r.high < 0) ||
      decide (r.low < 0) || decide (r.close < 0) then false
  else if b.rows.any fun r => decide (r.volume < 0) then false
  else true

/-- `StockDataDownloader.validate_data` (`stock_data.py` lines 186-213):
same shape as the ETF validator except that the price check is
`(data[col] <= 0).any()` (line 204) — zero prices are rejected. -/
def stockValidateData (b : Batch) : Bool :=
  if b.rows.isEmpty then false
  else if !(b.hasOpen && b.hasHigh && b.hasLow && b.hasClose &&
      b.hasVolume) then false
  else if b.rows.any fun r => decide (r.opn ≤ 0) || decide (r.high ≤ 0) ||
      decide (r.low ≤ 0) || decide (r.close ≤ 0) then false
  else if b.rows.any fun r => decide (r.volume < 0) then false
  else true

/-- `IndexDataDownloader.validate_data` (`index_data.py` lines 101-128):
textually identical to the stock validator, including the
`(data[col] <= 0).any()` rejection of zero prices (line 119). -/
def indexValidateData (b : Batch) : Bool :=
  if b.rows.isEmpty then false
  else if !(b.hasOpen && b.hasHigh && b.hasLow && b.hasClose &&
      b.hasVolume) then false
  else if b.rows.any fun r => decide (r.opn ≤ 0) || decide (r.high ≤ 0) ||
      decide (r.low ≤ 0) || decide (r.close ≤ 0) then false
  else if b.rows.any fun r => decide (r.volume < 0) then false
  else true

/-- `ETFDataDownloader.save_etf_data` (`etf_data.py` lines 478-566)
restricted to its effect on the (symbol, date) keys:
`INSERT ... ON CONFLICT (symbol, date) DO NOTHING`, row by row. -/
def saveEtfData (db : DB) (sym : String) : List Nat → DB
  | [] => db
  | d :: rest =>
    if (sym, d) ∈ db.rows then saveEtfData db sym rest
    else saveEtfData ⟨db.rows ++ [(sym, d)]⟩ sym rest

/-- Per-symbol outcome counted by `download_all_etfs`
(`successful_downloads` / `failed_downloads` / `skipped_symbols`). -/
inductive Outcome
  | succeeded
  | failed
  | skipped
  deriving DecidableEq, Repr

/-- `self.max_retries = 3` (`etf_data.py` line 42). -/
def maxRetries : Nat := 3

/-- Result of a download retry loop (`etf_data.py` lines 816-830,
`us_etf_data.py` lines 264-284): the first attempt that does not raise
determines `data`; when every attempt raises, `data` stays `None`. -/
def firstOk {α : Type} : List (Except Unit α) → Option α
  | [] => none
  | .ok b :: _ => some b
  | .error _ :: rest => firstOk rest

/-- The external world seen by one iteration of the `download_all_etfs`
loop: the symbol, the result of the Source call made inside
`get_missing_dates_for_symbol`, the per-attempt results of the download
retry loop, and whether `save_etf_data` commits (`saveOk = false`: the
save raises a storage error, which `save_etf_data` re-raises after
rollback, `etf_data.py` lines 560-563). -/
structure SymEnv where
  sym : String
  missRes : Except Unit Batch
  attempts : List (Except Unit Batch)
  saveOk : Bool
  deriving Repr

/-- One iteration of the `download_all_etfs` per-symbol loop
(`etf_data.py` lines 772-882): resolve the window start from the cursor,
skip when the start passes the user end date or nothing is missing,
otherwise download with retries, validate, filter to the missing dates and
save.  `.error` models an uncaught storage exception escaping the loop
body. -/
def etfStep (floorD endD : Nat) (db : DB) (env : SymEnv) :
    Except Unit (DB × Outcome) :=
  let startD := resolveStart floorD db env.sym
  if startD > endD then .ok (db, .skipped)
  else
    let missing := etfMissingDates db env.sym startD endD env.missRes
    if missing.isEmpty then .ok (db, .skipped)
    else
      match firstOk (env.attempts.take maxRetries) with
      | none => .ok (db, .failed)
      | some b =>
        if b.rows.isEmpty then .ok (db, .failed)
        else if !etfValidateData b then .ok (db, .failed)
        else
          let filtered := b.rows.filter fun r => decide (r.date ∈ missing)
          if filtered.isEmpty then .ok (db, .failed)
          else if env.saveOk then
            .ok (saveEtfData db env.sym (filtered.map Row.date), .succeeded)
          else .error ()

/-- Running tally of a `download_all_etfs` run: the storage, the three
counters, and the symbols whose loop iteration has run. -/
structure RunState where
  db : DB
  succ : Nat
  fail : Nat
  skip : Nat
  processed : List String
  deriving DecidableEq, Repr

/-- Fold one per-symbol outcome into the run tally. -/
def applyOutcome (st : RunState) (db' : DB) (o : Outcome) (sym : String) :
    RunState where
  db := db'
  succ := st.succ + (if o = .succeeded then 1 else 0)
  fail := st.fail + (if o = .failed then 1 else 0)
  skip := st.skip + (if o = .skipped then 1 else 0)
  processed := st.processed ++ [sym]

/-- The `download_all_etfs` driving loop (`etf_data.py` lines 772-887)
over a list of per-symbol environments.  An uncaught storage exception in
an iteration aborts the whole loop: `.error` carries the tally at the
abort (the raising symbol appended, its batch rolled back). -/
def etfRun (floorD endD : Nat) (st : RunState) :
    List SymEnv → Except RunState RunState
  | [] => .ok st
  | env :: rest =>
    match etfStep floorD endD st.db env with
    | .error _ => .error { st with processed := st.processed ++ [env.sym] }
    | .ok (db', o) => etfRun floorD endD (applyOutcome st db' o env.sym) rest

/-- A key is stored after `save_etf_data` iff it was stored before or is
one of the saved dates of the saved symbol (`ON CONFLICT DO NOTHING`
inserts exactly the new keys). -/
theorem mem_saveEtfData (sym : String) (dates : List Nat) (db : DB)
    (s : String) (d : Nat) :
    (s, d) ∈ (saveEtfData db sym dates).rows ↔
      (s, d) ∈ db.rows ∨ (s = sym ∧ d ∈ dates) := by
  induction dates generalizing db with
  | nil => simp [saveEtfData]
  | cons x xs ih =>
    by_cases hx : (sym, x) ∈ db.rows
    · rw [saveEtfData, if_pos hx, ih]
      simp only [List.mem_cons]
      constructor
      · rintro (h | ⟨rfl, hd⟩)
        · exact Or.inl h
        · exact Or.inr ⟨rfl, Or.inr hd⟩
      · rintro (h | ⟨rfl, rfl | hd⟩)
        · exact Or.inl h
        · exact Or.inl hx
        · exact Or.inr ⟨rfl, hd⟩
    · rw [saveEtfData, if_neg hx, ih]
      simp only [List.mem_append, List.mem_cons, List.mem_singleton,
        List.not_mem_nil, or_false, Prod.mk.injEq]
      tauto

/-- C3: convergence.  If the rows the Source returns for the window stay
inside the window, then persisting the computed missing dates (the
successful `fetch_and_persist`) makes a recomputation of
`get_missing_dates_for_symbol` over the same window, against the same
Source result, return the empty sequence. -/
theorem etfMissingDates_converges (db : DB) (sym : String)
    (startD endD : Nat) (b : Batch)
    (hb : ∀ r ∈ b.rows, startD ≤ r.date ∧ r.date ≤ endD) :
    etfMissingDates
      (saveEtfData db sym (etfMissingDates db sym startD endD (.ok b)))
      sym startD endD (.ok b) = [] := by
  have hok : ∀ (db' : DB), etfMissingDates db' sym startD endD (.ok b) =
      if b.rows.isEmpty then []
      else sortedSetDiff (tradedDates b) (existingDates db' sym startD endD) :=
    fun _ => rfl
  by_cases h : b.rows.isEmpty
  · rw [hok, if_pos h]
  · rw [hok, if_neg h]
    unfold sortedSetDiff
    rw [List.filter_eq_nil_iff.mpr ?_]
    · rfl
    intro d hd
    rw [List.mem_dedup] at hd
    simp only [decide_not, Bool.not_eq_eq_eq_not, Bool.not_true,
      decide_eq_false_iff_not, not_not]
    have hwin : startD ≤ d ∧ d ≤ endD := by
      obtain ⟨r, hr, rfl⟩ := List.mem_map.mp hd
      exact hb r hr
    rw [mem_existingDates, mem_saveEtfData]
    by_cases hex : d ∈ existingDates db sym startD endD
    · exact ⟨Or.inl ((mem_existingDates db sym startD endD d).mp hex).1,
        hwin⟩
    · refine ⟨Or.inr ⟨rfl, ?_⟩, hwin⟩
      rw [hok, if_neg h]
      exact (mem_sortedSetDiff _ _ d).mpr ⟨hd, hex⟩

/-- C7: cursor correctness.  When storage has no row for the symbol the
next fetch window starts at the configured historical floor; when the
latest persisted bar of the symbol is on day `D`, it starts at `D + 1`. -/
theorem resolveStart_cursor :
    (∀ (floorD : Nat) (db : DB) (sym : String),
      (∀ d, (sym, d) ∉ db.rows) → resolveStart floorD db sym = floorD) ∧
    (∀ (floorD : Nat) (db : DB) (sym : String) (D : Nat),
      (sym, D) ∈ db.rows → (∀ d, (sym, d) ∈ db.rows → d ≤ D) →
      resolveStart floorD db sym = D + 1) := by
  constructor
  · intro floorD db sym hnone
    have hfil : db.rows.filter (fun p => decide (p.1 = sym)) = [] := by
      rw [List.filter_eq_nil_iff]
      rintro ⟨p1, p2⟩ hp hdec
      rw [decide_eq_true_eq] at hdec
      exact hnone p2 (hdec ▸ hp)
    simp [resolveStart, lastDateForSymbol, hfil]
  · intro floorD db sym D hD hmax
    have hsome : lastDateForSymbol db sym = some D := by
      unfold lastDateForSymbol
      rw [List.max?_eq_some_iff (fun a => Nat.le_refl a) max_choice
        (fun a b c => Nat.max_le)]
      constructor
      · exact List.mem_map.mpr ⟨(sym, D),
          List.mem_filter.mpr ⟨hD, by simp⟩, rfl⟩
      · intro x hx
        obtain ⟨⟨p1, p2⟩, hp, rfl⟩ := List.mem_map.mp hx
        obtain ⟨hmem, hdec⟩ := List.mem_filter.mp hp
        rw [decide_eq_true_eq] at hdec
        exact hmax p2 (hdec ▸ hmem)
    simp [resolveStart, hsome]

/-- Witness for `resolveStart_cursor` at a concrete storage. -/
theorem resolveStart_cursor_witness :
    resolveStart 100 ⟨[]⟩ "A" = 100 ∧
    resolveStart 100 ⟨[("A", 19723), ("A", 19725)]⟩ "A" = 19726 := by
  constructor
  · exact resolveStart_cursor.1 100 ⟨[]⟩ "A" (by simp)
  · refine resolveStart_cursor.2 100 ⟨[("A", 19723), ("A", 19725)]⟩ "A"
      19725 (by simp) ?_
    intro d hd
    simp only [List.mem_cons, List.not_mem_nil, or_false,
      Prod.mk.injEq] at hd
    rcases hd with ⟨-, rfl⟩ | ⟨-, rfl⟩ <;> omega

/-- C10: when the Source raises inside `get_missing_dates_for_symbol`, the
exception is swallowed into an empty missing-date list, so the driving
loop leaves storage untouched and counts the symbol as skipped, whatever
the download attempts would have returned (they are never made) and
whether or not the save would have failed. -/
theorem etfStep_source_error_skipped (floorD endD : Nat) (db : DB)
    (sym : String) (attempts : List (Except Unit Batch)) (saveOk : Bool) :
    etfStep floorD endD db ⟨sym, .error (), attempts, saveOk⟩ =
      .ok (db, .skipped) := by
  by_cases h : resolveStart floorD db sym > endD
  · simp [etfStep, h]
  · simp [etfStep, h, etfMissingDates]

/-- A civil date as the US downloader manipulates it: `psycopg2` hands
`MAX(date)` back as a `datetime.date`, and row dates are rendered with
`strftime("%Y-%m-%d")`. -/
structure Date where
  year : Nat
  month : Nat
  day : Nat
  deriving DecidableEq, Repr

/-- Python `datetime.date` strict comparison: lexicographic on
(year, month, day). -/
def pyDateLt (a b : Date) : Bool :=
  decide (a.year < b.year) ||
    (decide (a.year = b.year) &&
      (decide (a.month < b.month) ||
        (decide (a.month = b.month) && decide (a.day < b.day))))

/-- Python `datetime.date` non-strict comparison. -/
def pyDateLe (a b : Date) : Bool := pyDateLt a b || decide (a = b)

/-- Gregorian leap-year test. -/
def isLeapYear (y : Nat) : Bool :=
  (y % 4 == 0 && y % 100 != 0) || y % 400 == 0

/-- Number of days of a month. -/
def daysInMonth (y m : Nat) : Nat :=
  if m = 2 then (if isLeapYear y then 29 else 28)
  else if m = 4 ∨ m = 6 ∨ m = 9 ∨ m = 11 then 30
  else 31

/-- `last_date_obj + pd.Timedelta(days=1)` (`us_etf_data.py` line 244). -/
def Date.next (d : Date) : Date :=
  if d.day < daysInMonth d.year d.month then ⟨d.year, d.month, d.day + 1⟩
  else if d.month < 12 then ⟨d.year, d.month + 1, 1⟩
  else ⟨d.year + 1, 1, 1⟩

/-- `'0' + n`: the ASCII digit of `n < 10`. -/
def digitChar (n : Nat) : Char := Char.ofNat (48 + n)

/-- The two decimal digits of `n < 100`, zero-padded (`%m` / `%d`). -/
def pad2 (n : Nat) : List Char := [digitChar (n / 10), digitChar (n % 10)]

/-- Python string `<=`: lexicographic comparison by code point, with a
proper prefix comparing below. -/
def charListLe : List Char → List Char → Bool
  | [], _ => true
  | _ :: _, [] => false
  | a :: as, b :: bs =>
    if a = b then charListLe as bs
    else decide (a.toNat < b.toNat)

/-- The character list of `dt.strftime("%Y-%m-%d")` (also
`str(datetime.date)`): zero-padded 4-digit year, 2-digit month and day.
For `year < 10000`, `pad2 (year / 100) ++ pad2 (year % 100)` is exactly
the four decimal digits of the year. -/
def isoChars (dt : Date) : List Char :=
  pad2 (dt.year / 100) ++
    (pad2 (dt.year % 100) ++
      ('-' :: (pad2 dt.month ++ '-' :: pad2 dt.day)))

/-- One row of the DataFrame `yf.download` returns to the US downloader;
`none` models a NaN cell (`pd.notna` fails). -/
structure USRow where
  date : Date
  opn : Option Rat
  high : Option Rat
  low : Option Rat
  close : Option Rat
  adjClose : Option Rat
  volume : Option Int
  deriving DecidableEq, Repr

/-- One stored row of `international_etf_data` restricted to the columns
the update path reads or writes (the constant provenance columns
`'YAHOO', 'US', ...` are omitted). -/
structure USBar where
  sym : String
  date : Date
  opn : Option Rat
  high : Option Rat
  low : Option Rat
  close : Option Rat
  adjClose : Option Rat
  volume : Int
  deriving DecidableEq, Repr

/-- The `international_etf_data` storage. -/
structure USDB where
  bars : List USBar
  deriving DecidableEq, Repr

/-- `USEtfDownloader.get_last_date_for_symbol` (`us_etf_data.py`
lines 96-108): `SELECT MAX(date) FROM international_etf_data WHERE
symbol = %s`. -/
def usLastDate (db : USDB) (sym : String) : Option Date :=
  ((db.bars.filter fun x => decide (x.sym = sym)).map USBar.date).foldl
    (fun acc d =>
      match acc with
      | none => some d
      | some m => if pyDateLt m d then some d else some m) none

/-- The row-dropping condition of the US incremental update
(`us_etf_data.py` line 306): skip the row when
`last_date and str(date_val) <= str(last_date)`. -/
def usKeepRow (lastDate : Option Date) (d : Date) : Bool :=
  match lastDate with
  | some L => !(charListLe (isoChars d) (isoChars L))
  | none => true

/-- The record-building loop of `update_daily_data` (`us_etf_data.py`
lines 298-324): keep the rows passing the string-comparison filter and
turn them into insertable records (`get_val` passes NaN through as NULL,
NaN volume becomes 0).  No validation of prices or volumes occurs. -/
def usBuildRecords (sym : String) (lastDate : Option Date)
    (rows : List USRow) : List USBar :=
  (rows.filter fun r => usKeepRow lastDate r.date).map fun r =>
    ⟨sym, r.date, r.opn, r.high, r.low, r.close, r.adjClose,
      r.volume.getD 0⟩

/-- `INSERT ... ON CONFLICT (symbol, date) DO UPDATE SET close,
adjusted_close, volume` (`us_etf_data.py` lines 327-336), row by row. -/
def usUpsert (db : USDB) : List USBar → USDB
  | [] => db
  | r :: rest =>
    if db.bars.any fun x => decide (x.sym = r.sym) && decide (x.date = r.date)
    then
      usUpsert ⟨db.bars.map fun x =>
        if x.sym = r.sym ∧ x.date = r.date then
          { x with
            close := r.close
            adjClose := r.adjClose
            volume := r.volume }
        else x⟩ rest
    else usUpsert ⟨db.bars ++ [r]⟩ rest

/-- Per-symbol outcome of `update_daily_data`: the `failed` counter is
only reached when the loop body raises, which none of the modelled paths
do. -/
inductive USOutcome
  | successful
  | failed
  deriving DecidableEq, Repr

/-- One iteration of the `update_daily_data` per-symbol loop
(`us_etf_data.py` lines 233-341): resolve the cursor, short-circuit as
already counted `successful` when the next fetch day passes the target
date, otherwise download with retries (the fetch window only
parameterizes the abstracted network call), build records through the
string-comparison filter — with no validation — and upsert them.  An
empty or absent download also counts the symbol `successful`
(lines 286-289). -/
def usStep (target : Date) (db : USDB) (sym : String)
    (attempts : List (Except Unit (List USRow))) : USDB × USOutcome :=
  let last := usLastDate db sym
  let upToDate : Bool :=
    match last with
    | some L => pyDateLt target (Date.next L)
    | none => false
  if upToDate then (db, .successful)
  else
    match firstOk (attempts.take maxRetries) with
    | none => (db, .successful)
    | some rows =>
      if rows.isEmpty then (db, .successful)
      else (usUpsert db (usBuildRecords sym last rows), .successful)

set_option maxRecDepth 4000 in
/-- Two-digit zero-padded renderings are equal exactly when the numbers
are. -/
theorem pad2_eq_iff : ∀ a : Nat, a < 100 → ∀ b : Nat, b < 100 →
    (pad2 a = pad2 b ↔ a = b) := by decide

set_option maxRecDepth 4000 in
/-- String comparison of two-digit zero-padded renderings agrees with
numeric comparison. -/
theorem pad2_le_iff : ∀ a : Nat, a < 100 → ∀ b : Nat, b < 100 →
    charListLe (pad2 a) (pad2 b) = decide (a ≤ b) := by decide

/-- Equal leading characters drop out of a string comparison. -/
theorem charListLe_cons (c : Char) (r1 r2 : List Char) :
    charListLe (c :: r1) (c :: r2) = charListLe r1 r2 := by
  simp [charListLe]

/-- A string comparison of two strings with equal-length leading blocks is
decided by the blocks unless they are equal, in which case it is decided
by the tails. -/
theorem charListLe_append (xs : List Char) (r1 r2 : List Char) :
    ∀ ys : List Char, xs.length = ys.length →
    charListLe (xs ++ r1) (ys ++ r2) =
      if xs = ys then charListLe r1 r2 else charListLe xs ys := by
  induction xs with
  | nil =>
    intro ys hlen
    cases ys with
    | nil => simp
    | cons b bs => simp at hlen
  | cons a as ih =>
    intro ys hlen
    cases ys with
    | nil => simp at hlen
    | cons b bs =>
      simp only [List.length_cons, Nat.add_right_cancel_iff] at hlen
      by_cases hab : a = b
      · subst hab
        rw [List.cons_append, List.cons_append, charListLe_cons,
          ih bs hlen]
        by_cases h2 : as = bs
        · simp [h2]
        · have hcons : (a :: as) ≠ (a :: bs) := by simp [h2]
          rw [if_neg h2, if_neg hcons, charListLe_cons]
      · have hcons : (a :: as) ≠ (b :: bs) := by simp [hab]
        rw [if_neg hcons]
        simp only [List.cons_append, charListLe, if_neg hab]

/-- String comparison of `%Y-%m-%d` renderings agrees with Python
date comparison whenever the fields are in rendering range. -/
theorem charListLe_isoChars (a b : Date)
    (hay : a.year < 10000) (ham : a.month < 100) (had : a.day < 100)
    (hby : b.year < 10000) (hbm : b.month < 100) (hbd : b.day < 100) :
    charListLe (isoChars a) (isoChars b) = pyDateLe a b := by
  obtain ⟨y1, m1, d1⟩ := a
  obtain ⟨y2, m2, d2⟩ := b
  simp only at hay ham had hby hbm hbd
  unfold isoChars
  simp only
  rw [charListLe_append _ _ _ _ (by simp [pad2])]
  by_cases h1 : pad2 (y1 / 100) = pad2 (y2 / 100)
  · rw [if_pos h1]
    have e1 : y1 / 100 = y2 / 100 :=
      (pad2_eq_iff _ (by omega) _ (by omega)).mp h1
    rw [charListLe_append _ _ _ _ (by simp [pad2])]
    by_cases h2 : pad2 (y1 % 100) = pad2 (y2 % 100)
    · rw [if_pos h2]
      have e2 : y1 % 100 = y2 % 100 :=
        (pad2_eq_iff _ (by omega) _ (by omega)).mp h2
      have ey : y1 = y2 := by omega
      rw [charListLe_cons]
      rw [charListLe_append _ _ _ _ (by simp [pad2])]
      by_cases h3 : pad2 m1 = pad2 m2
      · rw [if_pos h3]
        have e3 : m1 = m2 := (pad2_eq_iff _ ham _ hbm).mp h3
        rw [charListLe_cons, pad2_le_iff _ had _ hbd]
        rw [Bool.eq_iff_iff]
        simp only [pyDateLe, pyDateLt, Date.mk.injEq, decide_eq_true_eq,
          Bool.or_eq_true, Bool.and_eq_true]
        omega
      · rw [if_neg h3]
        have e3 : m1 ≠ m2 := fun h => h3 (h ▸ rfl)
        rw [pad2_le_iff _ ham _ hbm]
        rw [Bool.eq_iff_iff]
        simp only [pyDateLe, pyDateLt, Date.mk.injEq, decide_eq_true_eq,
          Bool.or_eq_true, Bool.and_eq_true]
        omega
    · rw [if_neg h2]
      have e2 : y1 % 100 ≠ y2 % 100 := fun h => h2 (h ▸ rfl)
      rw [pad2_le_iff _ (by omega) _ (by omega)]
      rw [Bool.eq_iff_iff]
      simp only [pyDateLe, pyDateLt, Date.mk.injEq, decide_eq_true_eq,
        Bool.or_eq_true, Bool.and_eq_true]
      omega
  · rw [if_neg h1]
    have e1 : y1 / 100 ≠ y2 / 100 := fun h => h1 (h ▸ rfl)
    rw [pad2_le_iff _ (by omega) _ (by omega)]
    rw [Bool.eq_iff_iff]
    simp only [pyDateLe, pyDateLt, Date.mk.injEq, decide_eq_true_eq,
      Bool.or_eq_true, Bool.and_eq_true]
    omega

/-- C9: in the US-ETF incremental update, the string-comparison row filter
`str(date_val) <= str(last_date)` keeps exactly the rows whose date is
strictly after `last_date` under date-typed comparison, for every stored
calendar date and every row date rendered in `YYYY-MM-DD`; consequently
the built record list is the date-typed strict filter of the fetched
rows. -/
theorem usKeepRow_refines_date_comparison (L : Date) (sym : String)
    (rows : List USRow)
    (hLy : L.year < 10000) (hLm : L.month < 100) (hLd : L.day < 100)
    (hrows : ∀ r ∈ rows, r.date.year < 10000 ∧ r.date.month < 100 ∧
      r.date.day < 100) :
    (∀ r ∈ rows, usKeepRow (some L) r.date = pyDateLt L r.date) ∧
    usBuildRecords sym (some L) rows =
      ((rows.filter fun r => pyDateLt L r.date).map fun r =>
        ⟨sym, r.date, r.opn, r.high, r.low, r.close, r.adjClose,
          r.volume.getD 0⟩) := by
  have key : ∀ r ∈ rows, usKeepRow (some L) r.date = pyDateLt L r.date := by
    intro r hr
    obtain ⟨hy, hm, hd⟩ := hrows r hr
    have hdef : usKeepRow (some L) r.date =
        !(charListLe (isoChars r.date) (isoChars L)) := rfl
    rw [hdef, charListLe_isoChars r.date L hy hm hd hLy hLm hLd]
    obtain ⟨y1, m1, d1⟩ := r.date
    obtain ⟨y2, m2, d2⟩ := L
    rw [Bool.eq_iff_iff]
    simp only [pyDateLe, pyDateLt, Date.mk.injEq, decide_eq_true_eq,
      Bool.or_eq_true, Bool.and_eq_true, Bool.not_eq_true',
      Bool.or_eq_false_iff, Bool.and_eq_false_iff, decide_eq_false_iff_not]
    omega
  refine ⟨key, ?_⟩
  unfold usBuildRecords
  rw [List.filter_congr key]

/-- Witness for `usKeepRow_refines_date_comparison`: a stored last date of
2024-01-05 drops the fetched rows of 2024-01-04 and 2024-01-05 and keeps
2024-01-08, exactly as date comparison would. -/
theorem usKeepRow_refines_date_comparison_witness :
    usKeepRow (some ⟨2024, 1, 5⟩) ⟨2024, 1, 8⟩ =
      pyDateLt ⟨2024, 1, 5⟩ ⟨2024, 1, 8⟩ ∧
    usKeepRow (some ⟨2024, 1, 5⟩) ⟨2024, 1, 4⟩ =
      pyDateLt ⟨2024, 1, 5⟩ ⟨2024, 1, 4⟩ := by
  have h8 := usKeepRow_refines_date_comparison ⟨2024, 1, 5⟩ "SPY"
    [⟨⟨2024, 1, 8⟩, none, none, none, none, none, none⟩,
     ⟨⟨2024, 1, 4⟩, none, none, none, none, none, none⟩]
    (by decide) (by decide) (by decide) (by decide)
  refine ⟨h8.1 ⟨⟨2024, 1, 8⟩, none, none, none, none, none, none⟩ ?_,
    h8.1 ⟨⟨2024, 1, 4⟩, none, none, none, none, none, none⟩ ?_⟩
  · exact List.mem_cons_self _ _
  · exact List.mem_cons_of_mem _ (List.mem_cons_self _ _)

/-- `pd.date_range(start, end, freq='B')` contains exactly the
Monday-Friday days of the window. -/
theorem mem_businessRange (startD endD d : Nat) :
    d ∈ businessRange startD endD ↔
      startD ≤ d ∧ d ≤ endD ∧ isBusinessDay d = true := by
  simp only [businessRange, List.mem_filter, List.mem_range'_1]
  constructor
  · rintro ⟨⟨h1, h2⟩, h3⟩
    exact ⟨h1, by omega, h3⟩
  · rintro ⟨h1, h2, h3⟩
    exact ⟨⟨h1, by omega⟩, h3⟩

/-- C2 counterexample: 2024-01-01 is a Monday on which the Source has no
row for the symbol (an unscheduled closure), yet the stock downloader
reports it missing, because its candidate set is the weekday calendar;
the Source-derived difference over the same window is empty. -/
theorem stockMissingDates_ignores_source_cex :
    stockMissingDates ⟨[]⟩ "TCS" (daysFromCivil 2024 1 1)
        (daysFromCivil 2024 1 1) = [daysFromCivil 2024 1 1] ∧
    sortedSetDiff (tradedDates (Batch.mk5 []))
      (existingDates ⟨[]⟩ "TCS" (daysFromCivil 2024 1 1)
        (daysFromCivil 2024 1 1)) = [] ∧
    [daysFromCivil 2024 1 1] ≠ ([] : List Nat) := by
  refine ⟨by decide, by decide, by decide⟩

/-- C2 amended: only the ETF-India downloader derives the candidate
trading-day set from the Source; the Stock-India and Index downloaders
generate candidates from the generic Monday-Friday business-day calendar
(`pd.date_range(freq='B')`), whatever the Source would return. -/
theorem missingDates_candidate_sources :
    (∀ (db : DB) (sym : String) (startD endD d : Nat),
      d ∈ stockMissingDates db sym startD endD ↔
        (startD ≤ d ∧ d ≤ endD ∧ isBusinessDay d = true) ∧
          ¬((sym, d) ∈ db.rows ∧ startD ≤ d ∧ d ≤ endD)) ∧
    (∀ (db : DB) (startD endD d : Nat),
      d ∈ indexMissingDates db startD endD ↔
        (startD ≤ d ∧ d ≤ endD ∧ isBusinessDay d = true) ∧
          ¬(("NIFTY50", d) ∈ db.rows ∧ startD ≤ d ∧ d ≤ endD)) ∧
    (∀ (db : DB) (sym : String) (startD endD : Nat) (b : Batch) (d : Nat),
      d ∈ etfMissingDates db sym startD endD (.ok b) ↔
        d ∈ tradedDates b ∧
          ¬((sym, d) ∈ db.rows ∧ startD ≤ d ∧ d ≤ endD)) := by
  refine ⟨fun db sym startD endD d => ?_, fun db startD endD d => ?_,
    fun db sym startD endD b d => ?_⟩
  · have hdef : stockMissingDates db sym startD endD =
        sortedSetDiff (businessRange startD endD)
          (existingDates db sym startD endD) := rfl
    rw [hdef, mem_sortedSetDiff, mem_businessRange, mem_existingDates]
  · have hdef : indexMissingDates db startD endD =
        sortedSetDiff (businessRange startD endD)
          (existingDates db "NIFTY50" startD endD) := rfl
    rw [hdef, mem_sortedSetDiff, mem_businessRange, mem_existingDates]
  · by_cases h : b.rows.isEmpty
    · simp [etfMissingDates, h, tradedDates, List.isEmpty_iff.mp h]
    · have hdef : etfMissingDates db sym startD endD (.ok b) =
          sortedSetDiff (tradedDates b)
            (existingDates db sym startD endD) := by
        simp only [etfMissingDates, h, if_false, Bool.false_eq_true]
      rw [hdef, mem_sortedSetDiff, mem_existingDates]

/-- C8 counterexample: a batch whose prices are all non-negative with one
zero open price is rejected by the stock validator (its check is
`(data[col] <= 0).any()`), contradicting the claim that every universe's
validate step lets zero prices through. -/
theorem stockValidate_rejects_zero_cex :
    stockValidateData (Batch.mk5 [⟨19723, 0, 11, 9, 10, 100⟩]) = false := by
  decide

/-- C8 amended: the ETF-India validator accepts batches with zero prices
(they are only logged), but the Stock-India and Index validators reject
any batch containing a zero price. -/
theorem zero_price_validation :
    (∀ b : Batch, b.rows ≠ [] →
      (b.hasOpen && b.hasHigh && b.hasLow && b.hasClose &&
        b.hasVolume) = true →
      (∀ r ∈ b.rows, 0 ≤ r.opn ∧ 0 ≤ r.high ∧ 0 ≤ r.low ∧ 0 ≤ r.close ∧
        0 ≤ r.volume) →
      etfValidateData b = true) ∧
    (∀ b : Batch,
      (∃ r ∈ b.rows, r.opn = 0 ∨ r.high = 0 ∨ r.low = 0 ∨ r.close = 0) →
      stockValidateData b = false) ∧
    (∀ b : Batch,
      (∃ r ∈ b.rows, r.opn = 0 ∨ r.high = 0 ∨ r.low = 0 ∨ r.close = 0) →
      indexValidateData b = false) := by
  refine ⟨fun b hne hcols hvals => ?_, fun b hzero => ?_,
    fun b hzero => ?_⟩
  · have h1 : ¬(b.rows.isEmpty = true) := by
      simp [List.isEmpty_iff, hne]
    have h2 : ¬((!(b.hasOpen && b.hasHigh && b.hasLow && b.hasClose &&
        b.hasVolume)) = true) := by simp [hcols]
    have h3 : ¬((b.rows.any fun r => decide (r.opn < 0) ||
        decide (r.high < 0) || decide (r.low < 0) ||
        decide (r.close < 0)) = true) := by
      simp only [List.any_eq_true, Bool.or_eq_true, decide_eq_true_eq,
        not_exists, not_and, not_or]
      intro r hr
      obtain ⟨ho, hh, hl, hc, _⟩ := hvals r hr
      exact ⟨⟨⟨not_lt.mpr ho, not_lt.mpr hh⟩, not_lt.mpr hl⟩,
        not_lt.mpr hc⟩
    have h4 : ¬((b.rows.any fun r => decide (r.volume < 0)) = true) := by
      simp only [List.any_eq_true, decide_eq_true_eq, not_exists, not_and]
      intro r hr
      exact not_lt.mpr (hvals r hr).2.2.2.2
    unfold etfValidateData
    rw [if_neg h1, if_neg h2, if_neg h3, if_neg h4]
  · obtain ⟨r, hr, hzero⟩ := hzero
    have h1 : ¬(b.rows.isEmpty = true) := by
      simp [List.isEmpty_iff, List.ne_nil_of_mem hr]
    unfold stockValidateData
    rw [if_neg h1]
    by_cases h2 : (!(b.hasOpen && b.hasHigh && b.hasLow && b.hasClose &&
        b.hasVolume)) = true
    · rw [if_pos h2]
    · rw [if_neg h2]
      have h3 : (b.rows.any fun r => decide (r.opn ≤ 0) ||
          decide (r.high ≤ 0) || decide (r.low ≤ 0) ||
          decide (r.close ≤ 0)) = true := by
        refine List.any_eq_true.mpr ⟨r, hr, ?_⟩
        rcases hzero with h | h | h | h <;> simp [h]
      rw [if_pos h3]
  · obtain ⟨r, hr, hzero⟩ := hzero
    have h1 : ¬(b.rows.isEmpty = true) := by
      simp [List.isEmpty_iff, List.ne_nil_of_mem hr]
    unfold indexValidateData
    rw [if_neg h1]
    by_cases h2 : (!(b.hasOpen && b.hasHigh && b.hasLow && b.hasClose &&
        b.hasVolume)) = true
    · rw [if_pos h2]
    · rw [if_neg h2]
      have h3 : (b.rows.any fun r => decide (r.opn ≤ 0) ||
          decide (r.high ≤ 0) || decide (r.low ≤ 0) ||
          decide (r.close ≤ 0)) = true := by
        refine List.any_eq_true.mpr ⟨r, hr, ?_⟩
        rcases hzero with h | h | h | h <;> simp [h]
      rw [if_pos h3]

/-- Witness for `zero_price_validation`: a one-row batch with a zero low
price passes the ETF validator and is rejected by the stock and index
validators. -/
theorem zero_price_validation_witness :
    etfValidateData (Batch.mk5 [⟨19723, 10, 11, 0, 10, 100⟩]) = true ∧
    stockValidateData (Batch.mk5 [⟨19723, 10, 11, 0, 10, 100⟩]) = false ∧
    indexValidateData (Batch.mk5 [⟨19723, 10, 11, 0, 10, 100⟩]) = false := by
  refine ⟨zero_price_validation.1 _ (by decide) (by decide) ?_,
    zero_price_validation.2.1 _ ?_, zero_price_validation.2.2 _ ?_⟩
  · intro r hr
    simp only [Batch.mk5, List.mem_singleton] at hr
    subst hr
    refine ⟨by norm_num, by norm_num, by norm_num, by norm_num, by norm_num⟩
  · exact ⟨⟨19723, 10, 11, 0, 10, 100⟩, by simp [Batch.mk5], by simp⟩
  · exact ⟨⟨19723, 10, 11, 0, 10, 100⟩, by simp [Batch.mk5], by simp⟩

/-- A batch with a negative price never passes the ETF validator. -/
theorem etfValidateData_eq_false_of_neg (b : Batch)
    (hneg : ∃ r ∈ b.rows,
      r.opn < 0 ∨ r.high < 0 ∨ r.low < 0 ∨ r.close < 0) :
    etfValidateData b = false := by
  obtain ⟨r, hr, hneg⟩ := hneg
  have h1 : ¬(b.rows.isEmpty = true) := by
    simp [List.isEmpty_iff, List.ne_nil_of_mem hr]
  unfold etfValidateData
  rw [if_neg h1]
  by_cases h2 : (!(b.hasOpen && b.hasHigh && b.hasLow && b.hasClose &&
      b.hasVolume)) = true
  · rw [if_pos h2]
  · rw [if_neg h2]
    have h3 : (b.rows.any fun r => decide (r.opn < 0) ||
        decide (r.high < 0) || decide (r.low < 0) ||
        decide (r.close < 0)) = true := by
      refine List.any_eq_true.mpr ⟨r, hr, ?_⟩
      rcases hneg with h | h | h | h <;> simp [h]
    rw [if_pos h3]

/-- C4 counterexample: the US-ETF incremental path persists a one-row
batch whose close price is −5 (no validation runs) and counts the symbol
as successful, contradicting wholesale rejection in every universe. -/
theorem us_negative_price_persisted_cex :
    usStep ⟨2024, 1, 10⟩ ⟨[]⟩ "SPY"
        [.ok [⟨⟨2024, 1, 2⟩, some 10, some 11, some 9, some (-5),
          some (-5), some 1000⟩]] =
      (⟨[⟨"SPY", ⟨2024, 1, 2⟩, some 10, some 11, some 9, some (-5),
          some (-5), 1000⟩]⟩, .successful) := by
  decide

/-- C4 amended: a fetched batch containing a negative price is rejected
wholesale in the ETF-India download path (nothing saved, symbol failed)
and by the Stock-India and Index validators; the US-ETF incremental path
performs no validation and upserts the built records regardless of their
prices, counting the symbol successful. -/
theorem negative_price_batch_rejected :
    (∀ (floorD endD : Nat) (db : DB) (env : SymEnv) (b : Batch),
      firstOk (env.attempts.take maxRetries) = some b →
      (∃ r ∈ b.rows,
        r.opn < 0 ∨ r.high < 0 ∨ r.low < 0 ∨ r.close < 0) →
      ¬(resolveStart floorD db env.sym > endD) →
      ¬((etfMissingDates db env.sym (resolveStart floorD db env.sym) endD
          env.missRes).isEmpty = true) →
      etfStep floorD endD db env = .ok (db, .failed)) ∧
    (∀ b : Batch,
      (∃ r ∈ b.rows,
        r.opn < 0 ∨ r.high < 0 ∨ r.low < 0 ∨ r.close < 0) →
      stockValidateData b = false) ∧
    (∀ b : Batch,
      (∃ r ∈ b.rows,
        r.opn < 0 ∨ r.high < 0 ∨ r.low < 0 ∨ r.close < 0) →
      indexValidateData b = false) ∧
    (∀ (target : Date) (db : USDB) (sym : String)
        (attempts : List (Except Unit (List USRow))) (rows : List USRow),
      usLastDate db sym = none →
      firstOk (attempts.take maxRetries) = some rows →
      rows ≠ [] →
      usStep target db sym attempts =
        (usUpsert db (usBuildRecords sym none rows), .successful)) := by
  refine ⟨fun floorD endD db env b hok hneg hstart hmiss => ?_,
    fun b hneg => ?_, fun b hneg => ?_,
    fun target db sym attempts rows hlast hok hne => ?_⟩
  · have hval : etfValidateData b = false :=
      etfValidateData_eq_false_of_neg b hneg
    obtain ⟨r, hr, -⟩ := hneg
    have hbne : ¬(b.rows.isEmpty = true) := by
      simp [List.isEmpty_iff, List.ne_nil_of_mem hr]
    simp only [etfStep]
    rw [if_neg hstart, if_neg hmiss, hok]
    simp only [hval, Bool.not_false, if_true, if_neg hbne, if_pos]
  · obtain ⟨r, hr, hneg'⟩ := hneg
    have h1 : ¬(b.rows.isEmpty = true) := by
      simp [List.isEmpty_iff, List.ne_nil_of_mem hr]
    unfold stockValidateData
    rw [if_neg h1]
    by_cases h2 : (!(b.hasOpen && b.hasHigh && b.hasLow && b.hasClose &&
        b.hasVolume)) = true
    · rw [if_pos h2]
    · rw [if_neg h2]
      have h3 : (b.rows.any fun r => decide (r.opn ≤ 0) ||
          decide (r.high ≤ 0) || decide (r.low ≤ 0) ||
          decide (r.close ≤ 0)) = true := by
        refine List.any_eq_true.mpr ⟨r, hr, ?_⟩
        rcases hneg' with h | h | h | h <;> simp [le_of_lt h]
      rw [if_pos h3]
  · obtain ⟨r, hr, hneg'⟩ := hneg
    have h1 : ¬(b.rows.isEmpty = true) := by
      simp [List.isEmpty_iff, List.ne_nil_of_mem hr]
    unfold indexValidateData
    rw [if_neg h1]
    by_cases h2 : (!(b.hasOpen && b.hasHigh && b.hasLow && b.hasClose &&
        b.hasVolume)) = true
    · rw [if_pos h2]
    · rw [if_neg h2]
      have h3 : (b.rows.any fun r => decide (r.opn ≤ 0) ||
          decide (r.high ≤ 0) || decide (r.low ≤ 0) ||
          decide (r.close ≤ 0)) = true := by
        refine List.any_eq_true.mpr ⟨r, hr, ?_⟩
        rcases hneg' with h | h | h | h <;> simp [le_of_lt h]
      rw [if_pos h3]
  · have hne' : rows.isEmpty = false := by
      simp [List.isEmpty_iff, hne]
    simp only [usStep, hlast, hok, hne']
    simp

/-- Witness for `negative_price_batch_rejected`: a concrete batch with a
−5 close is rejected with outcome failed by the ETF step and by the stock
and index validators, while the US step upserts it. -/
theorem negative_price_batch_rejected_witness :
    etfStep 19723 19723 ⟨[]⟩
        ⟨"A", .ok (Batch.mk5 [⟨19723, 10, 11, 9, 10, 100⟩]),
          [.ok (Batch.mk5 [⟨19723, 10, 11, 9, -5, 100⟩])], true⟩ =
      .ok (⟨[]⟩, .failed) ∧
    stockValidateData (Batch.mk5 [⟨19723, 10, 11, 9, -5, 100⟩]) = false ∧
    indexValidateData (Batch.mk5 [⟨19723, 10, 11, 9, -5, 100⟩]) = false ∧
    usStep ⟨2024, 1, 10⟩ ⟨[]⟩ "SPY"
        [.ok [⟨⟨2024, 1, 2⟩, some 10, some 11, some 9, some (-5),
          some (-5), some 1000⟩]] =
      (usUpsert ⟨[]⟩ (usBuildRecords "SPY" none
        [⟨⟨2024, 1, 2⟩, some 10, some 11, some 9, some (-5),
          some (-5), some 1000⟩]), .successful) := by
  refine ⟨negative_price_batch_rejected.1 19723 19723 ⟨[]⟩ _ _ (by rfl)
      ⟨⟨19723, 10, 11, 9, -5, 100⟩, by simp [Batch.mk5], by norm_num⟩
      (by decide) (by decide),
    negative_price_batch_rejected.2.1 _
      ⟨⟨19723, 10, 11, 9, -5, 100⟩, by simp [Batch.mk5], by norm_num⟩,
    negative_price_batch_rejected.2.2.1 _
      ⟨⟨19723, 10, 11, 9, -5, 100⟩, by simp [Batch.mk5], by norm_num⟩,
    negative_price_batch_rejected.2.2.2 ⟨2024, 1, 10⟩ ⟨[]⟩ "SPY" _ _
      (by rfl) (by rfl) (by simp)⟩

/-- C5 counterexample: when the fetch for a window returns an empty
DataFrame, the US-ETF update counts the symbol in its `successful`
counter (it has no skipped counter at all), contradicting the claim that
every universe counts it as skipped. -/
theorem us_empty_fetch_successful_cex :
    usStep ⟨2024, 1, 10⟩ ⟨[]⟩ "SPY" [.ok []] = (⟨[]⟩, .successful) := by
  decide

/-- C5 amended: an empty Source result writes zero rows everywhere; the
ETF-India run counts the symbol as skipped (the empty missing-date list
short-circuits before any download), while the US-ETF run counts it as
successful. -/
theorem empty_source_outcomes :
    (∀ (floorD endD : Nat) (db : DB) (sym : String) (b : Batch)
        (attempts : List (Except Unit Batch)) (saveOk : Bool),
      b.rows = [] →
      etfStep floorD endD db ⟨sym, .ok b, attempts, saveOk⟩ =
        .ok (db, .skipped)) ∧
    (∀ (target : Date) (db : USDB) (sym : String)
        (attempts : List (Except Unit (List USRow))),
      firstOk (attempts.take maxRetries) = some [] →
      usStep target db sym attempts = (db, .successful)) := by
  constructor
  · intro floorD endD db sym b attempts saveOk hb
    by_cases h : resolveStart floorD db sym > endD
    · simp [etfStep, h]
    · simp [etfStep, h, etfMissingDates, hb]
  · intro target db sym attempts hok
    rcases hL : usLastDate db sym with _ | L
    · simp [usStep, hL, hok]
    · by_cases hup : pyDateLt target (Date.next L) = true
      · simp [usStep, hL, hup]
      · simp [usStep, hL, hup, hok]

/-- Witness for `empty_source_outcomes` at concrete inputs. -/
theorem empty_source_outcomes_witness :
    etfStep 19723 19723 ⟨[("A", 19000)]⟩
        ⟨"A", .ok (Batch.mk5 []), [], true⟩ =
      .ok (⟨[("A", 19000)]⟩, .skipped) ∧
    usStep ⟨2024, 1, 10⟩ ⟨[]⟩ "SPY" [.ok []] = (⟨[]⟩, .successful) := by
  exact ⟨empty_source_outcomes.1 19723 19723 ⟨[("A", 19000)]⟩ "A"
      (Batch.mk5 []) [] true rfl,
    empty_source_outcomes.2 ⟨2024, 1, 10⟩ ⟨[]⟩ "SPY" [.ok []] rfl⟩

/-- A loop iteration whose save commits never raises: every other exit of
the per-symbol body is a caught, counted outcome. -/
theorem etfStep_isOk_of_saveOk (floorD endD : Nat) (db : DB)
    (env : SymEnv) (h : env.saveOk = true) :
    ∃ p : DB × Outcome, etfStep floorD endD db env = .ok p := by
  by_cases h1 : resolveStart floorD db env.sym > endD
  · exact ⟨(db, .skipped), by simp [etfStep, h1]⟩
  · by_cases h2 : (etfMissingDates db env.sym
        (resolveStart floorD db env.sym) endD env.missRes).isEmpty = true
    · exact ⟨(db, .skipped), by simp [etfStep, h1, h2]⟩
    · rcases h3 : firstOk (env.attempts.take maxRetries) with _ | b
      · exact ⟨(db, .failed), by simp [etfStep, h1, h2, h3]⟩
      · by_cases h4 : b.rows.isEmpty = true
        · exact ⟨(db, .failed), by simp [etfStep, h1, h2, h3, h4]⟩
        · by_cases h5 : (!etfValidateData b) = true
          · exact ⟨(db, .failed), by simp [etfStep, h1, h2, h3, h4, h5]⟩
          · by_cases h6 : (b.rows.filter fun r => decide (r.date ∈
                etfMissingDates db env.sym (resolveStart floorD db env.sym)
                  endD env.missRes)).isEmpty = true
            · exact ⟨(db, .failed),
                by simp [etfStep, h1, h2, h3, h4, h5, h6]⟩
            · exact ⟨(saveEtfData db env.sym ((b.rows.filter fun r =>
                decide (r.date ∈ etfMissingDates db env.sym
                  (resolveStart floorD db env.sym) endD
                  env.missRes)).map Row.date), .succeeded),
                by simp [etfStep, h1, h2, h3, h4, h5, h6, h]⟩

/-- C6 counterexample: a storage error raised while persisting the first
symbol's batch (re-raised by `save_etf_data`) aborts the whole run: the
second symbol is never processed, no counters survive. -/
theorem etfRun_storage_abort_cex :
    etfRun (daysFromCivil 2024 1 1) (daysFromCivil 2024 1 1)
        ⟨⟨[]⟩, 0, 0, 0, []⟩
        [⟨"A",
          .ok (Batch.mk5 [⟨daysFromCivil 2024 1 1, 10, 11, 9, 10, 100⟩]),
          [.ok (Batch.mk5 [⟨daysFromCivil 2024 1 1, 10, 11, 9, 10, 100⟩])],
          false⟩,
         ⟨"B",
          .ok (Batch.mk5 [⟨daysFromCivil 2024 1 1, 10, 11, 9, 10, 100⟩]),
          [.ok (Batch.mk5 [⟨daysFromCivil 2024 1 1, 10, 11, 9, 10, 100⟩])],
          true⟩] =
      .error ⟨⟨[]⟩, 0, 0, 0, ["A"]⟩ := by
  rfl

/-- C6 amended: failures from exhausted retries or validation rejection
are scoped to one symbol — when every save commits, the run processes
every symbol in order and each symbol adds exactly one to the three
counters — but an uncaught storage error while persisting aborts the run
early (see the counterexample). -/
theorem etfRun_completes_when_saves_commit (floorD endD : Nat)
    (st : RunState) (envs : List SymEnv) :
    (∀ env ∈ envs, env.saveOk = true) →
    ∃ st', etfRun floorD endD st envs = .ok st' ∧
      st'.processed = st.processed ++ envs.map SymEnv.sym ∧
      st'.succ + st'.fail + st'.skip =
        st.succ + st.fail + st.skip + envs.length := by
  induction envs generalizing st with
  | nil => exact fun _ => ⟨st, rfl, by simp, by simp⟩
  | cons env rest ih =>
    intro h
    obtain ⟨⟨db2, o⟩, hstep⟩ := etfStep_isOk_of_saveOk floorD endD st.db
      env (h env (List.mem_cons_self _ _))
    obtain ⟨st2, h1, h2, h3⟩ := ih (applyOutcome st db2 o env.sym)
      (fun e he => h e (List.mem_cons_of_mem _ he))
    refine ⟨st2, ?_, ?_, ?_⟩
    · show etfRun floorD endD st (env :: rest) = .ok st2
      rw [etfRun, hstep]
      exact h1
    · rw [h2]
      simp [applyOutcome]
    · rw [h3]
      cases o <;> simp [applyOutcome] <;> omega

/-- Witness for `etfRun_completes_when_saves_commit`: a two-symbol run
whose saves commit finishes with both symbols processed, one succeeding
and one skipped. -/
theorem etfRun_completes_when_saves_commit_witness :
    ∃ st', etfRun 19723 19723 ⟨⟨[]⟩, 0, 0, 0, []⟩
        [⟨"A", .ok (Batch.mk5 [⟨19723, 10, 11, 9, 10, 100⟩]),
          [.ok (Batch.mk5 [⟨19723, 10, 11, 9, 10, 100⟩])], true⟩,
         ⟨"B", .error (), [], true⟩] = .ok st' ∧
      st'.processed = [] ++ ["A", "B"] ∧
      st'.succ + st'.fail + st'.skip = 0 + 0 + 0 + 2 := by
  exact etfRun_completes_when_saves_commit 19723 19723 ⟨⟨[]⟩, 0, 0, 0, []⟩
    _ (by decide)

/-- Witness for `etfMissingDates_converges`: persisting the two missing
scenario dates empties the recomputed missing-date list. -/
theorem etfMissingDates_converges_witness :
    etfMissingDates
      (saveEtfData abcDB "ABC" (etfMissingDates abcDB "ABC"
        (daysFromCivil 2024 1 1) (daysFromCivil 2024 1 5) (.ok abcBatch)))
      "ABC" (daysFromCivil 2024 1 1) (daysFromCivil 2024 1 5)
      (.ok abcBatch) = [] :=
  etfMissingDates_converges abcDB "ABC" (daysFromCivil 2024 1 1)
    (daysFromCivil 2024 1 5) abcBatch (by decide)
